import Mathlib

/-!
Shallow embedding of the dProp client (src/app.js): the live-query
reconciliation handler, the map-marker secondary index, the permission
derivation used by card rendering, the mutation coordinator paths
(status change, edit / publish submission, share grant) and the
pagination-cursor logic of performSearch.

JavaScript objects are modelled as association lists of string keys to
`JsVal`, read with first-match lookup.  A spread expression
`\x7b ...a, ...b \x7d` therefore becomes `b ++ a` (later writes shadow
earlier ones), and an object literal lists its properties with the
last-written property first.
-/

namespace DProp

/-- A JavaScript value as used by the app: undefined, null, string,
number (integral model; `nan` models NaN), or a nested object. -/
inductive JsVal where
  | undefinedV : JsVal
  | nul : JsVal
  | str : String → JsVal
  | num : Int → JsVal
  | nan : JsVal
  | obj : List (String × JsVal) → JsVal

/-- A JavaScript object: key/value pairs, first match wins on lookup. -/
abbrev JsObj := List (String × JsVal)

/-- Property read `o.k`: first pair whose key matches, else absent. -/
def objGet : JsObj → String → Option JsVal
  | [], _ => none
  | (k, v) :: rest, key => if k == key then some v else objGet rest key

/-- Member access `o.k` as a value: `undefined` when the key is absent. -/
def objGetU (o : JsObj) (k : String) : JsVal :=
  (objGet o k).getD .undefinedV

/-- JavaScript truthiness of a value. -/
def jsTruthy : JsVal → Bool
  | .undefinedV => false
  | .nul => false
  | .str s => s ≠ ""
  | .num n => n ≠ 0
  | .nan => false
  | .obj _ => true

/-- Truthiness of a member access result (`undefined` when absent). -/
def jsTruthyOpt : Option JsVal → Bool
  | none => false
  | some v => jsTruthy v

/-- Strict equality `v === "s"` against a string literal. -/
def jsStrictEqStr (v : Option JsVal) (s : String) : Bool :=
  match v with
  | some (.str t) => t == s
  | _ => false

/-- JavaScript property-key coercion of a nullable identity:
`o[x]` with `x = null` reads the key `"null"`. -/
def jsKey : Option String → String
  | none => "null"
  | some s => s

/-- Property-key coercion of an arbitrary value (used for `p.id`). -/
def jsKeyOf : Option JsVal → String
  | some (.str s) => s
  | some (.num n) => toString n
  | some .nan => "NaN"
  | some .nul => "null"
  | some .undefinedV => "undefined"
  | some (.obj _) => "[object Object]"
  | none => "undefined"

/-! ### Keyed association-list operations

The DOM grid (keyed by element id) and the `mapMarkers` object are both
modelled as key/value lists.  DOM lookup (`getElementById`) and JS object
access find the first entry with a given key; well-formed states have
distinct keys (HTML ids are unique, JS object keys are unique). -/

/-- `getElementById`-style membership: some entry has key `k`. -/
def hasKey (l : List (String × α)) (k : String) : Bool :=
  l.any (fun c => c.1 == k)

/-- Remove the first entry with key `k` (DOM `remove()` on the found
element; JS `delete o[k]`). -/
def eraseFirstKey : List (String × α) → String → List (String × α)
  | [], _ => []
  | c :: rest, k => if c.1 == k then rest else c :: eraseFirstKey rest k

/-- Replace the first entry with key `k` in place (DOM `replaceWith`;
in-place marker mutation), keeping its list position. -/
def replaceFirstKey : List (String × α) → String → α → List (String × α)
  | [], _, _ => []
  | c :: rest, k, v => if c.1 == k then (k, v) :: rest else c :: replaceFirstKey rest k v

/-- Update the entry with key `k` when present, else append a new one. -/
def upsertKey (l : List (String × α)) (k : String) (v : α) : List (String × α) :=
  if hasKey l k then replaceFirstKey l k v else l ++ [(k, v)]

/-! ### Map-marker secondary index (`updateMapMarker`, src/app.js 68–111) -/

/-- The `mapMarkers` index: marker data per record id.  A marker is
fully determined by the record `p` it was last drawn from (position
`[p.lat, p.lng]`, popup content and icon are functions of `p`), so the
index stores `p` itself. -/
abbrev MarkerMap := List (String × JsObj)

/-- `updateMapMarker(p)`: returns the new `mapMarkers` state.
Faithful to the source order: the `!p.lat || !p.lng` guard runs first,
then the `status === "deleted"` removal branch, then upsert. -/
def updateMapMarker (markers : MarkerMap) (p : JsObj) : MarkerMap :=
  if !jsTruthyOpt (objGet p "lat") || !jsTruthyOpt (objGet p "lng") then
    markers
  else if jsStrictEqStr (objGet p "status") "deleted" then
    eraseFirstKey markers (jsKeyOf (objGet p "id"))
  else
    upsertKey markers (jsKeyOf (objGet p "id")) p

/-! ### Reconciliation handler (`handleRealtimeUpdate`, src/app.js 157–187) -/

/-- The view state owned by the reconciliation handler: the
`property-grid` cards in DOM order, keyed by the event id used in
`card-$\x7bid\x7d`, holding the record each card was rendered from; and
the `mapMarkers` index. -/
structure ViewModel where
  grid : List (String × JsObj)
  markers : MarkerMap

/-- `handleRealtimeUpdate(id, value, action)` folded into a state
transformer.  `action = "removed"`: remove the card if present and call
`updateMapMarker(\x7b id, status: "deleted" \x7d)`.  Otherwise build
`p = \x7b id, ...value \x7d`, update the marker, then replace the
existing card in place, or append it when `action` is `"added"` or
`"initial"`, or drop the event. -/
def handleRealtimeUpdate (vm : ViewModel) (id : String) (value : JsObj)
    (action : String) : ViewModel :=
  if action == "removed" then
    { grid := eraseFirstKey vm.grid id
      markers := updateMapMarker vm.markers [("id", .str id), ("status", .str "deleted")] }
  else
    let p : JsObj := value ++ [("id", .str id)]
    { grid :=
        if hasKey vm.grid id then replaceFirstKey vm.grid id p
        else if action == "added" || action == "initial" then vm.grid ++ [(id, p)]
        else vm.grid
      markers := updateMapMarker vm.markers p }

/-! ### Permission derivation in `createCardHTML` (src/app.js 189–254) -/

/-- `const isOwner = currentUser && p.owner === currentUser`:
false when not authenticated, else strict string comparison with
`p.owner`. -/
def isOwnerB (currentUser : Option String) (p : JsObj) : Bool :=
  match currentUser with
  | none => false
  | some u => jsStrictEqStr (objGet p "owner") u

/-- `const isCollab = p.collaborators && p.collaborators[currentUser] === "write"`:
false when `collaborators` is absent/falsy; otherwise index the
collaborators object with the (null-coerced) current identity and
compare strictly with `"write"`.  Indexing a truthy non-object yields
`undefined`, hence false. -/
def isCollabB (currentUser : Option String) (p : JsObj) : Bool :=
  match objGet p "collaborators" with
  | some (.obj l) => jsStrictEqStr (objGet l (jsKey currentUser)) "write"
  | _ => false

/-- `const canEdit = isOwner || isCollab`. -/
def canEditB (currentUser : Option String) (p : JsObj) : Bool :=
  isOwnerB currentUser p || isCollabB currentUser p

/-- Which controls the card template emits: the share button is inside
the `canEdit` block and additionally guarded by `isOwner`; the edit
button and the status-change row are emitted exactly when `canEdit`. -/
structure CardControls where
  share : Bool
  edit : Bool
  statusRow : Bool
deriving DecidableEq

/-- The control visibility of `createCardHTML` for identity `cu` on
record `p` (the card itself is rendered for every record). -/
def cardControls (cu : Option String) (p : JsObj) : CardControls :=
  { share := canEditB cu p && isOwnerB cu p
    edit := canEditB cu p
    statusRow := canEditB cu p }

/-- The four-valued capability of the spec, derived from the card
logic: `isOwner` yields write-owner, else `isCollab` yields
write-collaborator; with no write capability the record is still
rendered (read) when authenticated, none otherwise. -/
inductive Capability where
  | writeOwner : Capability
  | writeCollaborator : Capability
  | read : Capability
  | none : Capability
deriving DecidableEq

/-- Capability derived for `cu` on record `p` from the
`isOwner`/`isCollab`/`canEdit` logic gating the card controls. -/
def resolveCapability (cu : Option String) (p : JsObj) : Capability :=
  if isOwnerB cu p then .writeOwner
  else if isCollabB cu p then .writeCollaborator
  else match cu with
  | some _ => .read
  | Option.none => .none

/-! ### Record store and mutation coordinator (src/app.js 305–450) -/

/-- The external store viewed through `db.get` / `db.sm.acls.set`:
records by id. -/
abbrev Store := List (String × JsObj)

/-- `db.get(id)` — the record's value, or absent. -/
def storeGet (st : Store) (id : String) : Option JsObj :=
  match st with
  | [] => Option.none
  | (k, v) :: rest => if k == id then some v else storeGet rest id

/-- `changeStatus(id, newStatus)` (src/app.js 308–317): read the
record; when absent return without writing; else submit
`\x7b ...node.value, status: newStatus \x7d` as a full-value write.
The result is the value passed to `db.sm.acls.set`, if any. -/
def changeStatus (st : Store) (id : String) (newStatus : String) : Option JsObj :=
  match storeGet st id with
  | Option.none => Option.none
  | some v => some (("status", .str newStatus) :: v)

/-- JS whitespace for trimming form-field strings. -/
def isJsSpace (c : Char) : Bool :=
  c == ' ' || c == '\t' || c == '\n' || c == '\r'

/-- `s.trim()` on the character list model. -/
def jsTrim (s : String) : String :=
  ⟨((s.data.dropWhile isJsSpace).reverse.dropWhile isJsSpace).reverse⟩

/-- Does the second character list start with the first? -/
def charsStart : List Char → List Char → Bool
  | [], _ => true
  | _ :: _, [] => false
  | a :: as, b :: bs => a == b && charsStart as bs

/-- `s.startsWith(p)`. -/
def jsStartsWith (s p : String) : Bool :=
  charsStart p.data s.data

/-- Decimal digits to a number; absent when empty or not all digits. -/
def digitsVal : List Char → Option Nat :=
  let rec aux : List Char → Nat → Option Nat
    | [], acc => some acc
    | c :: rest, acc =>
      if c.isDigit then aux rest (acc * 10 + (c.toNat - 48)) else Option.none
  fun l => match l with
  | [] => Option.none
  | _ :: _ => aux l 0

/-- `Number(s)` on a form-field string, in an integral model: the
numeric value, or absent for NaN (a non-numeric string).  Whitespace
trims; the empty string converts to 0. -/
def jsNumber (s : String) : Option Int :=
  match (jsTrim s).data with
  | [] => some 0
  | '-' :: rest => (digitsVal rest).map (fun n => -(n : Int))
  | l => (digitsVal l).map (fun n => (n : Int))

/-- `Number(fd.get(k))` as a `JsVal`: `Number(null) = 0`, a
non-numeric string gives NaN. -/
def numVal (v : Option String) : JsVal :=
  match v with
  | Option.none => .num 0
  | some s =>
    match jsNumber s with
    | some n => .num n
    | Option.none => .nan

/-- `fd.get(k)` as a `JsVal`: the string, or `null` when absent. -/
def strVal (v : Option String) : JsVal :=
  match v with
  | Option.none => .nul
  | some s => .str s

/-- `FormData` of the publish form: `fd.get` per field name. -/
abbrev FormData := String → Option String

/-- The `propertyData` literal of the publish-form submit handler
(src/app.js 403–419): the fixed whitelist of form fields, with
`createdAt` set to `undefined` when editing and to the current time
when creating.  No `owner` key is ever read from the form. -/
def buildPropertyData (fd : FormData) (editId : String) (now : Int) : JsObj :=
  [ ("type", .str "Property"),
    ("title", strVal (fd "title")),
    ("operation", strVal (fd "operation")),
    ("propertyType", strVal (fd "propertyType")),
    ("price", numVal (fd "price")),
    ("currency", strVal (fd "currency")),
    ("country", strVal (fd "country")),
    ("city", strVal (fd "city")),
    ("zone", strVal (fd "zone")),
    ("address", strVal (fd "address")),
    ("imgUrl", strVal (fd "imgUrl")),
    ("lat", numVal (fd "lat")),
    ("lng", numVal (fd "lng")),
    ("createdAt", if editId ≠ "" then .undefinedV else .num now) ]

/-- The publish-form submit handler (src/app.js 394–450), yielding the
value passed to `db.sm.acls.set` together with the target id (`some`
for the update flow, `Option.none` for create).  Update flow: fetch the
original; merge `\x7b ...oldNode.value, ...propertyData,
createdAt: oldNode.value.createdAt \x7d`.  When `db.get` finds nothing
the dereference of `oldNode.value` throws and the catch block swallows
it, so no write happens.  Create flow: `propertyData` extended with
`owner = currentUser`, `status = "available"`, empty `collaborators`. -/
def publishFormSubmit (st : Store) (fd : FormData) (editId : String)
    (currentUser : Option String) (now : Int) : Option (JsObj × Option String) :=
  let propertyData := buildPropertyData fd editId now
  if editId ≠ "" then
    match storeGet st editId with
    | Option.none => Option.none
    | some old =>
      some (("createdAt", objGetU old "createdAt") :: propertyData ++ old, some editId)
  else
    some (("collaborators", .obj []) :: ("status", .str "available") ::
          ("owner", strVal currentUser) :: propertyData, Option.none)

/-- A numeric form field is well-formed when it is absent
(`Number(null) = 0`) or parses as a number — a non-numeric string would
become NaN. -/
def numericFieldOk (v : Option String) : Bool :=
  match v with
  | Option.none => true
  | some s => (jsNumber s).isSome

/-- A required form field is well-formed when present and non-empty. -/
def requiredFieldOk (v : Option String) : Bool :=
  match v with
  | Option.none => false
  | some s => s ≠ ""

/-- Modelled from the spec: the publish form's field validation.  The
input constraints live in the index.html markup, which is not part of
src/; per the spec, malformed numeric/required fields are "caught
before submission, surfaced as a field-level message, never sent to the
store".  The numeric fields of the data model are price, lat and lng
(lat/lng optional per the spec, so absent or empty — which converts to
0 — is allowed); the required fields are the core record fields title,
operation, propertyType, price, currency, country and city (zone,
address and imgUrl are optional: the card renderer substitutes a
placeholder image and never shows zone/address). -/
def formPassesValidation (fd : FormData) : Bool :=
  requiredFieldOk (fd "title") && requiredFieldOk (fd "operation") &&
  requiredFieldOk (fd "propertyType") && requiredFieldOk (fd "currency") &&
  requiredFieldOk (fd "country") && requiredFieldOk (fd "city") &&
  requiredFieldOk (fd "price") && numericFieldOk (fd "price") &&
  numericFieldOk (fd "lat") && numericFieldOk (fd "lng")

/-- Outcome of a publish/edit submission attempt. -/
inductive SubmitOutcome where
  | fieldError : SubmitOutcome
  | noRecord : SubmitOutcome
  | write : JsObj → Option String → SubmitOutcome

/-- The submission pipeline: field validation (modelled from the spec,
see `formPassesValidation`) gating the src/app.js submit handler. -/
def submitPipeline (st : Store) (fd : FormData) (editId : String)
    (currentUser : Option String) (now : Int) : SubmitOutcome :=
  if formPassesValidation fd then
    match publishFormSubmit st fd editId currentUser now with
    | Option.none => .noRecord
    | some (w, tgt) => .write w tgt
  else .fieldError

/-- State touched by `confirmShare`: the record store and the ACL
grants issued through `db.sm.acls.grant` (record id, grantee, level). -/
structure ShareState where
  store : Store
  grants : List (String × String × String)

/-- `confirmShare()` (src/app.js 355–381): trim the entered address;
return before any store operation unless it starts with `"0x"`; else
grant write at the ACL layer, then re-read the record and write it back
with the grantee added to its `collaborators` map.  When the record is
absent the grant has already been issued and the subsequent dereference
throws into the catch block, leaving the store unwritten. -/
def confirmShare (sst : ShareState) (id : String) (input : String) : ShareState :=
  let addr := jsTrim input
  if !(jsStartsWith addr "0x") then sst
  else
    let grants' := sst.grants ++ [(id, addr, "write")]
    match storeGet sst.store id with
    | Option.none => { store := sst.store, grants := grants' }
    | some v =>
      let collabs :=
        match objGet v "collaborators" with
        | some (.obj l) => l
        | _ => []
      let collabs' := upsertKey collabs addr (.str "write")
      let v' : JsObj := ("collaborators", .obj collabs') :: v
      { store := upsertKey sst.store id v', grants := grants' }

/-! ### Pagination in `performSearch` (src/app.js 114–155) -/

/-- A result node of `db.map` as used by the cursor logic: only its id
is consulted. -/
structure RNode where
  id : String
deriving DecidableEq, Repr

/-- The cursor update at the end of `performSearch` (src/app.js 154):
`if (results.length > 0) currentCursor = results[results.length - 1].id`. -/
def advanceCursor (cur : Option String) (results : List RNode) : Option String :=
  match results.getLast? with
  | some last => some last.id
  | Option.none => cur

/-- The load-more affordance (src/app.js 151–153): the button is
hidden exactly when the page has fewer than 12 results. -/
def loadMoreHidden (results : List RNode) : Bool :=
  results.length < 12

/-! ### Lemmas about keyed lists -/

theorem hasKey_true_iff (l : List (String × α)) (k : String) :
    hasKey l k = true ↔ k ∈ l.map Prod.fst := by
  simp only [hasKey, List.any_eq_true, List.mem_map, beq_iff_eq]

theorem hasKey_append (l₁ l₂ : List (String × α)) (k : String) :
    hasKey (l₁ ++ l₂) k = (hasKey l₁ k || hasKey l₂ k) := by
  simp [hasKey, List.any_append]

theorem replaceFirstKey_idem (l : List (String × α)) (k : String) (v : α) :
    replaceFirstKey (replaceFirstKey l k v) k v = replaceFirstKey l k v := by
  induction l with
  | nil => rfl
  | cons c rest ih =>
    cases h : (c.1 == k) with
    | true => simp [replaceFirstKey, h]
    | false => simp [replaceFirstKey, h, ih]

theorem hasKey_replaceFirstKey (l : List (String × α)) (k : String) (v : α) :
    hasKey (replaceFirstKey l k v) k = hasKey l k := by
  induction l with
  | nil => rfl
  | cons c rest ih =>
    cases h : (c.1 == k) with
    | true => simp [replaceFirstKey, hasKey, h]
    | false => simpa [replaceFirstKey, hasKey, h] using ih

theorem replaceFirstKey_append_fresh (l : List (String × α)) (k : String) (v : α)
    (h : hasKey l k = false) :
    replaceFirstKey (l ++ [(k, v)]) k v = l ++ [(k, v)] := by
  induction l with
  | nil => simp [replaceFirstKey]
  | cons c rest ih =>
    simp only [hasKey, List.any_cons, Bool.or_eq_false_iff] at h
    simp [replaceFirstKey, h.1, ih (by simp [hasKey, h.2])]

theorem upsertKey_idem (l : List (String × α)) (k : String) (v : α) :
    upsertKey (upsertKey l k v) k v = upsertKey l k v := by
  unfold upsertKey
  cases h : hasKey l k with
  | true => simp [h, hasKey_replaceFirstKey, replaceFirstKey_idem]
  | false =>
    simp [h, hasKey_append, hasKey, replaceFirstKey_append_fresh _ _ _ h]

theorem eraseFirstKey_of_not_hasKey (l : List (String × α)) (k : String)
    (h : hasKey l k = false) :
    eraseFirstKey l k = l := by
  induction l with
  | nil => rfl
  | cons c rest ih =>
    simp only [hasKey, List.any_cons, Bool.or_eq_false_iff] at h
    simp [eraseFirstKey, h.1, ih (by simp [hasKey, h.2])]

theorem hasKey_eraseFirstKey_of_nodup (l : List (String × α)) (k : String)
    (h : (l.map Prod.fst).Nodup) :
    hasKey (eraseFirstKey l k) k = false := by
  induction l with
  | nil => rfl
  | cons c rest ih =>
    simp only [List.map_cons, List.nodup_cons] at h
    cases hc : (c.1 == k) with
    | true =>
      simp only [eraseFirstKey, hc, if_true]
      rw [Bool.eq_false_iff]
      intro habs
      rw [hasKey_true_iff] at habs
      exact h.1 (by rwa [← (beq_iff_eq).mp hc] at habs)
    | false =>
      have h2 := ih h.2
      simp [eraseFirstKey, hasKey, hc] at h2 ⊢
      exact h2

theorem eraseFirstKey_idem (l : List (String × α)) (k : String)
    (h : (l.map Prod.fst).Nodup) :
    eraseFirstKey (eraseFirstKey l k) k = eraseFirstKey l k :=
  eraseFirstKey_of_not_hasKey _ _ (hasKey_eraseFirstKey_of_nodup l k h)

/-- Applying `updateMapMarker` twice with the same record is the same
as applying it once, on a marker index with distinct keys. -/
theorem updateMapMarker_idem (m : MarkerMap) (p : JsObj)
    (h : (m.map Prod.fst).Nodup) :
    updateMapMarker (updateMapMarker m p) p = updateMapMarker m p := by
  unfold updateMapMarker
  cases h1 : (!jsTruthyOpt (objGet p "lat") || !jsTruthyOpt (objGet p "lng")) with
  | true => simp [h1]
  | false =>
    cases h2 : jsStrictEqStr (objGet p "status") "deleted" with
    | true => simp [h1, h2, eraseFirstKey_idem _ _ h]
    | false => simp [h1, h2, upsertKey_idem]

/-- Tombstone marker updates (`updateMapMarker(\x7b id, status: "deleted" \x7d)`)
leave the marker index unchanged: the `!p.lat` guard fires because the
tombstone object carries no coordinates. -/
theorem updateMapMarker_tombstone (m : MarkerMap) (id : String) :
    updateMapMarker m [("id", .str id), ("status", .str "deleted")] = m := rfl

/-- C3: applying the same ChangeEvent twice through
`handleRealtimeUpdate` yields the same view-model as applying it once,
for every view-model whose grid card ids and marker keys are distinct
(as DOM element ids and JS object keys are). -/
theorem claim_c3_reconciliation_idempotent (vm : ViewModel) (id : String)
    (value : JsObj) (action : String)
    (hg : (vm.grid.map Prod.fst).Nodup)
    (hm : (vm.markers.map Prod.fst).Nodup) :
    handleRealtimeUpdate (handleRealtimeUpdate vm id value action) id value action
      = handleRealtimeUpdate vm id value action := by
  cases ha : (action == "removed") with
  | true =>
    simp only [handleRealtimeUpdate, ha, if_true, updateMapMarker_tombstone]
    rw [eraseFirstKey_idem _ _ hg]
  | false =>
    simp only [handleRealtimeUpdate, ha, Bool.false_eq_true, if_false]
    cases hk : hasKey vm.grid id with
    | true =>
      simp only [hk, if_true, hasKey_replaceFirstKey, replaceFirstKey_idem,
        updateMapMarker_idem _ _ hm]
    | false =>
      cases hadd : (action == "added" || action == "initial") with
      | true =>
        have hx : hasKey (vm.grid ++ [(id, value ++ [("id", JsVal.str id)])]) id = true := by
          simp [hasKey_append, hk, hasKey]
        simp only [hk, Bool.false_eq_true, if_false, hadd, if_true, hx,
          updateMapMarker_idem _ _ hm, replaceFirstKey_append_fresh _ _ _ hk]
      | false =>
        simp only [hk, Bool.false_eq_true, if_false, hadd,
          updateMapMarker_idem _ _ hm]

/-- Witness for C3 at a concrete view-model and event. -/
theorem claim_c3_witness :
    (([("a", ([("lat", JsVal.num 1)] : JsObj))].map Prod.fst).Nodup ∧
     ([("a", ([("lat", JsVal.num 1)] : JsObj))].map Prod.fst).Nodup) ∧
    handleRealtimeUpdate
        (handleRealtimeUpdate ⟨[("a", [("lat", JsVal.num 1)])], [("a", [("lat", JsVal.num 1)])]⟩
          "b" [("lat", JsVal.num 3), ("lng", JsVal.num 4)] "added")
        "b" [("lat", JsVal.num 3), ("lng", JsVal.num 4)] "added"
      = handleRealtimeUpdate ⟨[("a", [("lat", JsVal.num 1)])], [("a", [("lat", JsVal.num 1)])]⟩
          "b" [("lat", JsVal.num 3), ("lng", JsVal.num 4)] "added" :=
  ⟨⟨by simp, by simp⟩,
    claim_c3_reconciliation_idempotent _ "b" _ "added" (by simp) (by simp)⟩

/-! ### Object lookup lemmas -/

theorem objGet_cons (k : String) (v : JsVal) (l : JsObj) (key : String) :
    objGet ((k, v) :: l) key = if k == key then some v else objGet l key := rfl

theorem objGet_nil (key : String) : objGet ([] : JsObj) key = Option.none := rfl

theorem jsStrictEqStr_some_str (t s : String) :
    jsStrictEqStr (some (.str t)) s = (t == s) := rfl

theorem jsStrictEqStr_none (s : String) :
    jsStrictEqStr Option.none s = false := rfl

theorem objGet_append_left_none (a b : JsObj) (k : String)
    (h : objGet a k = Option.none) :
    objGet (a ++ b) k = objGet b k := by
  induction a with
  | nil => rfl
  | cons c rest ih =>
    obtain ⟨ck, cv⟩ := c
    rw [objGet_cons] at h
    by_cases hc : (ck == k) = true
    · rw [if_pos hc] at h
      exact Option.noConfusion h
    · rw [if_neg hc] at h
      show objGet ((ck, cv) :: (rest ++ b)) k = objGet b k
      rw [objGet_cons, if_neg hc]
      exact ih h

theorem objGet_append_left_some (a b : JsObj) (k : String) (v : JsVal)
    (h : objGet a k = some v) :
    objGet (a ++ b) k = some v := by
  induction a with
  | nil => exact Option.noConfusion h
  | cons c rest ih =>
    obtain ⟨ck, cv⟩ := c
    rw [objGet_cons] at h
    by_cases hc : (ck == k) = true
    · rw [if_pos hc] at h
      show objGet ((ck, cv) :: (rest ++ b)) k = some v
      rw [objGet_cons, if_pos hc]
      exact h
    · rw [if_neg hc] at h
      show objGet ((ck, cv) :: (rest ++ b)) k = some v
      rw [objGet_cons, if_neg hc]
      exact ih h

/-- The `propertyData` literal never carries an `owner` key: the form
whitelist reads no owner field. -/
theorem buildPropertyData_owner_none (fd : FormData) (editId : String) (now : Int) :
    objGet (buildPropertyData fd editId now) "owner" = Option.none := rfl

/-- C1: for every edit submission (`editId` non-empty), whatever the
form fields carry — including forged `createdAt` and `owner` entries in
the `FormData`, which the whitelist never reads — the value passed to
`db.sm.acls.set` has the `createdAt` and the `owner` of the pre-edit
record read back from the store. -/
theorem claim_c1_edit_preserves_created_and_owner
    (st : Store) (fd : FormData) (editId : String) (cu : Option String)
    (now : Int) (old : JsObj)
    (hid : editId ≠ "") (hget : storeGet st editId = some old) :
    ∃ w, publishFormSubmit st fd editId cu now = some (w, some editId) ∧
      objGet w "createdAt" = some (objGetU old "createdAt") ∧
      objGet w "owner" = objGet old "owner" := by
  refine ⟨("createdAt", objGetU old "createdAt") :: buildPropertyData fd editId now ++ old,
    ?_, rfl, ?_⟩
  · simp [publishFormSubmit, hid, hget]
  · refine objGet_append_left_none _ _ _ ?_
    rw [objGet_cons, if_neg (by simp)]
    exact buildPropertyData_owner_none fd editId now

/-- Witness for C1: an edit of record `p1` whose form data forges both
`createdAt` and `owner`; the write keeps the stored values. -/
theorem claim_c1_witness :
    (("p1" : String) ≠ "" ∧
     storeGet [("p1", [("createdAt", JsVal.num 100), ("owner", JsVal.str "0xa")])] "p1"
       = some [("createdAt", JsVal.num 100), ("owner", JsVal.str "0xa")]) ∧
    (∃ w, publishFormSubmit [("p1", [("createdAt", JsVal.num 100), ("owner", JsVal.str "0xa")])]
        (fun k => if k = "createdAt" then some "9999" else
                  if k = "owner" then some "0xevil" else some "x")
        "p1" (some "0xevil") 777 = some (w, some "p1") ∧
      objGet w "createdAt"
        = some (objGetU [("createdAt", JsVal.num 100), ("owner", JsVal.str "0xa")] "createdAt") ∧
      objGet w "owner" = objGet [("createdAt", JsVal.num 100), ("owner", JsVal.str "0xa")] "owner") :=
  ⟨⟨by decide, rfl⟩,
    claim_c1_edit_preserves_created_and_owner _ _ "p1" (some "0xevil") 777 _ (by decide) rfl⟩

/-- C4: `changeStatus(id, newStatus)` on a record present in the store
submits a full record whose `status` is `newStatus` and whose every
other field equals the value just read. -/
theorem claim_c4_changeStatus_frame
    (st : Store) (id : String) (newStatus : String) (v : JsObj)
    (hget : storeGet st id = some v) :
    ∃ w, changeStatus st id newStatus = some w ∧
      objGet w "status" = some (.str newStatus) ∧
      ∀ k, k ≠ "status" → objGet w k = objGet v k := by
  refine ⟨("status", .str newStatus) :: v, by simp [changeStatus, hget], rfl, ?_⟩
  intro k hk
  have hne : ("status" == k) = false := beq_eq_false_iff_ne.mpr (Ne.symm hk)
  rw [objGet_cons, hne]
  simp

/-- Witness for C4: a status change to `"sold"` on a concrete record
preserves `createdAt`, `owner` and `collaborators`. -/
theorem claim_c4_witness :
    storeGet [("p1", [("status", JsVal.str "available"), ("owner", JsVal.str "0xa"),
        ("createdAt", JsVal.num 5), ("collaborators", JsVal.obj [])])] "p1"
      = some [("status", JsVal.str "available"), ("owner", JsVal.str "0xa"),
        ("createdAt", JsVal.num 5), ("collaborators", JsVal.obj [])] ∧
    ∃ w, changeStatus [("p1", [("status", JsVal.str "available"), ("owner", JsVal.str "0xa"),
        ("createdAt", JsVal.num 5), ("collaborators", JsVal.obj [])])] "p1" "sold" = some w ∧
      objGet w "status" = some (.str "sold") ∧
      ∀ k, k ≠ "status" →
        objGet w k = objGet [("status", JsVal.str "available"), ("owner", JsVal.str "0xa"),
          ("createdAt", JsVal.num 5), ("collaborators", JsVal.obj [])] k :=
  ⟨rfl, claim_c4_changeStatus_frame _ "p1" "sold" _ rfl⟩

/-! ### Capability and control-visibility claims -/

/-- C2: for a record with owner `O` and collaborators `\x7bA: "write"\x7d`,
the capability derived by the card logic is write-owner for `O`,
write-collaborator for `A`, read for any other identity `B` (controls
hidden — the card itself renders for everyone), and none when no
identity is active.  `A ≠ "null"` records that collaborator keys are
hex addresses, never the string JS coerces a null identity to. -/
theorem claim_c2_capability_resolution
    (O A B : String) (p : JsObj)
    (hown : objGet p "owner" = some (.str O))
    (hcol : objGet p "collaborators" = some (.obj [(A, .str "write")]))
    (hAO : A ≠ O) (hBO : B ≠ O) (hBA : B ≠ A) (hAn : A ≠ "null") :
    resolveCapability (some O) p = .writeOwner ∧
    resolveCapability (some A) p = .writeCollaborator ∧
    (resolveCapability (some B) p = .read ∧ cardControls (some B) p = ⟨false, false, false⟩) ∧
    resolveCapability Option.none p = .none := by
  have eOA : (O == A) = false := beq_eq_false_iff_ne.mpr (Ne.symm hAO)
  have eOB : (O == B) = false := beq_eq_false_iff_ne.mpr (Ne.symm hBO)
  have eAB : (A == B) = false := beq_eq_false_iff_ne.mpr (Ne.symm hBA)
  have eAn : (A == "null") = false := beq_eq_false_iff_ne.mpr hAn
  refine ⟨?_, ?_, ⟨?_, ?_⟩, ?_⟩
  · simp [resolveCapability, isOwnerB, jsStrictEqStr_some_str, hown]
  · simp [resolveCapability, isOwnerB, isCollabB, jsStrictEqStr_some_str, jsKey,
      hown, hcol, objGet_cons, eOA]
  · simp [resolveCapability, isOwnerB, isCollabB, jsStrictEqStr_some_str,
      jsStrictEqStr_none, jsKey, hown, hcol, objGet_cons, objGet_nil, eOB, eAB]
  · simp [cardControls, canEditB, isOwnerB, isCollabB, jsStrictEqStr_some_str,
      jsStrictEqStr_none, jsKey, hown, hcol, objGet_cons, objGet_nil, eOB, eAB]
  · simp [resolveCapability, isOwnerB, isCollabB, jsStrictEqStr_some_str,
      jsStrictEqStr_none, jsKey, hown, hcol, objGet_cons, objGet_nil, eAn]

/-- Witness for C2 at concrete identities and record. -/
theorem claim_c2_witness :
    (objGet [("owner", JsVal.str "0xaaa"),
        ("collaborators", JsVal.obj [("0xbbb", JsVal.str "write")])] "owner"
        = some (.str "0xaaa") ∧
     ("0xbbb" : String) ≠ "0xaaa" ∧ ("0xccc" : String) ≠ "0xaaa" ∧
     ("0xccc" : String) ≠ "0xbbb" ∧ ("0xbbb" : String) ≠ "null") ∧
    (resolveCapability (some "0xaaa") [("owner", JsVal.str "0xaaa"),
        ("collaborators", JsVal.obj [("0xbbb", JsVal.str "write")])] = .writeOwner ∧
     resolveCapability (some "0xbbb") [("owner", JsVal.str "0xaaa"),
        ("collaborators", JsVal.obj [("0xbbb", JsVal.str "write")])] = .writeCollaborator ∧
     (resolveCapability (some "0xccc") [("owner", JsVal.str "0xaaa"),
        ("collaborators", JsVal.obj [("0xbbb", JsVal.str "write")])] = .read ∧
      cardControls (some "0xccc") [("owner", JsVal.str "0xaaa"),
        ("collaborators", JsVal.obj [("0xbbb", JsVal.str "write")])] = ⟨false, false, false⟩) ∧
     resolveCapability Option.none [("owner", JsVal.str "0xaaa"),
        ("collaborators", JsVal.obj [("0xbbb", JsVal.str "write")])] = .none) :=
  ⟨⟨rfl, by decide, by decide, by decide, by decide⟩,
    claim_c2_capability_resolution "0xaaa" "0xbbb" "0xccc" _
      rfl rfl (by decide) (by decide) (by decide) (by decide)⟩

/-- C10: the share control is rendered exactly when the current
identity is the record owner; a write-collaborator `A` sees the edit
and status controls but not the share control; an unrelated identity
`B` and an unauthenticated visitor see none of them. -/
theorem claim_c10_share_control_owner_only
    (cu : Option String) (p : JsObj)
    (O A B : String) (coll : List (String × JsVal))
    (hown : objGet p "owner" = some (.str O))
    (hcol : objGet p "collaborators" = some (.obj coll))
    (hA : objGet coll A = some (.str "write")) (hAO : A ≠ O)
    (hB : jsStrictEqStr (objGet coll B) "write" = false) (hBO : B ≠ O)
    (hnull : jsStrictEqStr (objGet coll "null") "write" = false) :
    (cardControls cu p).share = isOwnerB cu p ∧
    cardControls (some A) p = ⟨false, true, true⟩ ∧
    cardControls (some B) p = ⟨false, false, false⟩ ∧
    cardControls Option.none p = ⟨false, false, false⟩ := by
  have eOA : (O == A) = false := beq_eq_false_iff_ne.mpr (Ne.symm hAO)
  have eOB : (O == B) = false := beq_eq_false_iff_ne.mpr (Ne.symm hBO)
  refine ⟨?_, ?_, ?_, ?_⟩
  · cases h : isOwnerB cu p with
    | true => simp [cardControls, canEditB, h]
    | false => simp [cardControls, canEditB, h]
  · simp [cardControls, canEditB, isOwnerB, isCollabB, jsStrictEqStr_some_str,
      jsKey, hown, hcol, hA, eOA]
  · simp [cardControls, canEditB, isOwnerB, isCollabB, jsStrictEqStr_some_str,
      jsKey, hown, hcol, hB, eOB]
  · simp [cardControls, canEditB, isOwnerB, isCollabB, jsKey, hcol, hnull]

/-- Witness for C10 at concrete identities and record. -/
theorem claim_c10_witness :
    (objGet [("owner", JsVal.str "0xaaa"),
        ("collaborators", JsVal.obj [("0xbbb", JsVal.str "write"), ("0xddd", JsVal.str "read")])]
        "owner" = some (.str "0xaaa") ∧
     objGet [("0xbbb", JsVal.str "write"), ("0xddd", JsVal.str "read")] "0xbbb"
        = some (.str "write") ∧
     jsStrictEqStr (objGet [("0xbbb", JsVal.str "write"), ("0xddd", JsVal.str "read")] "0xddd")
        "write" = false) ∧
    ((cardControls (some "0xaaa") [("owner", JsVal.str "0xaaa"),
        ("collaborators", JsVal.obj [("0xbbb", JsVal.str "write"), ("0xddd", JsVal.str "read")])]).share
      = isOwnerB (some "0xaaa") [("owner", JsVal.str "0xaaa"),
        ("collaborators", JsVal.obj [("0xbbb", JsVal.str "write"), ("0xddd", JsVal.str "read")])] ∧
     cardControls (some "0xbbb") [("owner", JsVal.str "0xaaa"),
        ("collaborators", JsVal.obj [("0xbbb", JsVal.str "write"), ("0xddd", JsVal.str "read")])]
      = ⟨false, true, true⟩ ∧
     cardControls (some "0xddd") [("owner", JsVal.str "0xaaa"),
        ("collaborators", JsVal.obj [("0xbbb", JsVal.str "write"), ("0xddd", JsVal.str "read")])]
      = ⟨false, false, false⟩ ∧
     cardControls Option.none [("owner", JsVal.str "0xaaa"),
        ("collaborators", JsVal.obj [("0xbbb", JsVal.str "write"), ("0xddd", JsVal.str "read")])]
      = ⟨false, false, false⟩) :=
  ⟨⟨rfl, rfl, rfl⟩,
    claim_c10_share_control_owner_only (some "0xaaa") _ "0xaaa" "0xbbb" "0xddd" _
      rfl rfl rfl (by decide) rfl (by decide) rfl⟩

/-! ### Removal, update-insertion, pagination, validation, share claims -/

/-- A listing with coordinates, as previously rendered into the grid
and the marker index. -/
def sampleListing : JsObj :=
  [("lat", .num 1), ("lng", .num 2), ("status", .str "available"),
   ("title", .str "Flat"), ("id", .str "p1")]

/-- C5: a `removed` event purges the card from the grid, but the map
marker survives: `updateMapMarker(\x7b id, status: "deleted" \x7d)` hits
the `!p.lat` guard first, because the tombstone object carries no
coordinates, and returns before the `status === "deleted"` removal
branch can run.  The marker index still holds the record afterwards. -/
theorem claim_c5_removed_event_keeps_marker :
    (handleRealtimeUpdate ⟨[("p1", sampleListing)], [("p1", sampleListing)]⟩
        "p1" [] "removed").grid = [] ∧
    (handleRealtimeUpdate ⟨[("p1", sampleListing)], [("p1", sampleListing)]⟩
        "p1" [] "removed").markers = [("p1", sampleListing)] :=
  ⟨rfl, rfl⟩

/-- C6 counterexample: an `updated` event whose id has no card is
dropped, not treated as `added` — the grid stays empty even though the
carried value (no predicate is ever consulted by the handler) would
match any active filter. -/
theorem claim_c6_counterexample :
    (handleRealtimeUpdate ⟨[], []⟩ "p1"
        [("lat", .num 1), ("lng", .num 2), ("status", .str "available")]
        "updated").grid = [] := rfl

/-- C6 amended: an `updated` event for an id with no existing card
leaves the grid unchanged (the event is dropped; only the map marker
is upserted). -/
theorem claim_c6_amended_updated_absent_dropped
    (vm : ViewModel) (id : String) (value : JsObj)
    (h : hasKey vm.grid id = false) :
    (handleRealtimeUpdate vm id value "updated").grid = vm.grid := by
  simp [handleRealtimeUpdate, h]

/-- Witness for the amended C6. -/
theorem claim_c6_witness :
    hasKey ([] : List (String × JsObj)) "p1" = false ∧
    (handleRealtimeUpdate ⟨[], [("p2", sampleListing)]⟩ "p1"
        [("title", .str "T")] "updated").grid = [] :=
  ⟨rfl, claim_c6_amended_updated_absent_dropped ⟨[], [("p2", sampleListing)]⟩ "p1" _ rfl⟩

/-- A five-record page, fewer than the page size of 12. -/
def fiveResults : List RNode := [⟨"r1"⟩, ⟨"r2"⟩, ⟨"r3"⟩, ⟨"r4"⟩, ⟨"r5"⟩]

/-- C7 counterexample: a page of five records (fewer than 12) still
advances the cursor — `performSearch` updates `currentCursor` whenever
`results.length > 0`, so the position does not stay unchanged. -/
theorem claim_c7_counterexample :
    fiveResults.length < 12 ∧ advanceCursor Option.none fiveResults ≠ Option.none := by
  refine ⟨by decide, ?_⟩
  intro h
  exact Option.noConfusion h

/-- C7 amended: the cursor is left unchanged only when the page is
empty; any non-empty page moves it to the last record's id; the
load-more affordance is hidden exactly when fewer than 12 records were
returned. -/
theorem claim_c7_amended_cursor_and_exhaustion
    (cur : Option String) (results : List RNode) :
    (results = [] → advanceCursor cur results = cur) ∧
    (∀ last, results.getLast? = some last → advanceCursor cur results = some last.id) ∧
    (loadMoreHidden results = true ↔ results.length < 12) := by
  refine ⟨?_, ?_, ?_⟩
  · intro h
    subst h
    rfl
  · intro last h
    simp [advanceCursor, h]
  · simp [loadMoreHidden]

/-- Witness for the amended C7. -/
theorem claim_c7_witness :
    advanceCursor (some "c0") fiveResults = some "r5" ∧
    (loadMoreHidden fiveResults = true ↔ fiveResults.length < 12) :=
  ⟨(claim_c7_amended_cursor_and_exhaustion (some "c0") fiveResults).2.1 ⟨"r5"⟩ rfl,
   (claim_c7_amended_cursor_and_exhaustion (some "c0") fiveResults).2.2⟩

/-- A numeric field that passes validation renders as a genuine number
(never NaN) under the handler's `Number(...)` conversion. -/
theorem numVal_of_numericFieldOk (v : Option String)
    (h : numericFieldOk v = true) :
    ∃ n, numVal v = .num n := by
  cases v with
  | none => exact ⟨0, rfl⟩
  | some s =>
    simp only [numericFieldOk, Option.isSome_iff_exists] at h
    obtain ⟨n, hn⟩ := h
    exact ⟨n, by simp [numVal, hn]⟩

/-- A write emitted by the pipeline implies validation passed and the
submit handler produced exactly that value. -/
theorem submitPipeline_write_inv (st : Store) (fd : FormData) (editId : String)
    (cu : Option String) (now : Int) (w : JsObj) (tgt : Option String)
    (h : submitPipeline st fd editId cu now = .write w tgt) :
    formPassesValidation fd = true ∧
    publishFormSubmit st fd editId cu now = some (w, tgt) := by
  unfold submitPipeline at h
  cases hv : formPassesValidation fd with
  | false =>
    rw [hv] at h
    simp at h
  | true =>
    rw [hv] at h
    simp only [if_true] at h
    cases hps : publishFormSubmit st fd editId cu now with
    | none =>
      rw [hps] at h
      simp at h
    | some wt =>
      rw [hps] at h
      obtain ⟨w0, tgt0⟩ := wt
      simp only at h
      injection h with h1 h2
      exact ⟨rfl, by rw [h1, h2]⟩

/-- Every value the submit handler passes to the store carries the
handler's `Number(...)` conversion of the form's price, lat and lng in
those fields: the whitelist entries shadow whatever an old record
held. -/
theorem publishFormSubmit_numeric_fields (st : Store) (fd : FormData)
    (editId : String) (cu : Option String) (now : Int) (w : JsObj)
    (tgt : Option String)
    (hps : publishFormSubmit st fd editId cu now = some (w, tgt)) :
    objGet w "price" = some (numVal (fd "price")) ∧
    objGet w "lat" = some (numVal (fd "lat")) ∧
    objGet w "lng" = some (numVal (fd "lng")) := by
  unfold publishFormSubmit at hps
  by_cases he : editId ≠ ""
  · rw [if_pos he] at hps
    cases hg : storeGet st editId with
    | none =>
      rw [hg] at hps
      exact Option.noConfusion hps
    | some old =>
      rw [hg] at hps
      simp only [Option.some.injEq, Prod.mk.injEq] at hps
      obtain ⟨hw, -⟩ := hps
      subst hw
      refine ⟨?_, ?_, ?_⟩
      · exact objGet_append_left_some _ old "price" _ rfl
      · exact objGet_append_left_some _ old "lat" _ rfl
      · exact objGet_append_left_some _ old "lng" _ rfl
  · rw [if_neg he] at hps
    simp only [Option.some.injEq, Prod.mk.injEq] at hps
    obtain ⟨hw, -⟩ := hps
    subst hw
    exact ⟨rfl, rfl, rfl⟩

/-- C8: a publish or edit submission with a malformed numeric field
(price, lat or lng failing to parse) or a missing/empty required field
is stopped by field validation (modelled from the spec, see
`formPassesValidation`) with a field-level error, before any store
operation; and no write the pipeline ever emits carries a malformed
numeric value — every emitted write holds genuine numbers in price,
lat and lng. -/
theorem claim_c8_validation_blocks_malformed_fields
    (st : Store) (fd : FormData) (editId : String) (cu : Option String)
    (now : Int)
    (hbad : numericFieldOk (fd "price") = false ∨
            numericFieldOk (fd "lat") = false ∨
            numericFieldOk (fd "lng") = false ∨
            requiredFieldOk (fd "title") = false ∨
            requiredFieldOk (fd "operation") = false ∨
            requiredFieldOk (fd "propertyType") = false ∨
            requiredFieldOk (fd "currency") = false ∨
            requiredFieldOk (fd "country") = false ∨
            requiredFieldOk (fd "city") = false ∨
            requiredFieldOk (fd "price") = false) :
    submitPipeline st fd editId cu now = .fieldError ∧
    (∀ (st' : Store) (fd' : FormData) (editId' : String) (cu' : Option String)
        (now' : Int) (w : JsObj) (tgt : Option String),
      submitPipeline st' fd' editId' cu' now' = .write w tgt →
        (∃ n, objGet w "price" = some (.num n)) ∧
        (∃ n, objGet w "lat" = some (.num n)) ∧
        (∃ n, objGet w "lng" = some (.num n))) := by
  constructor
  · have hv : formPassesValidation fd = false := by
      unfold formPassesValidation
      rcases hbad with h | h | h | h | h | h | h | h | h | h <;> simp [h]
    simp [submitPipeline, hv]
  · intro st' fd' editId' cu' now' w tgt hw
    obtain ⟨hv, hps⟩ := submitPipeline_write_inv st' fd' editId' cu' now' w tgt hw
    unfold formPassesValidation at hv
    simp only [Bool.and_eq_true] at hv
    obtain ⟨⟨⟨⟨⟨⟨⟨⟨⟨-, -⟩, -⟩, -⟩, -⟩, -⟩, -⟩, hprice⟩, hlat⟩, hlng⟩ := hv
    obtain ⟨hp, hl, hg⟩ :=
      publishFormSubmit_numeric_fields st' fd' editId' cu' now' w tgt hps
    obtain ⟨n1, hn1⟩ := numVal_of_numericFieldOk _ hprice
    obtain ⟨n2, hn2⟩ := numVal_of_numericFieldOk _ hlat
    obtain ⟨n3, hn3⟩ := numVal_of_numericFieldOk _ hlng
    exact ⟨⟨n1, by rw [hp, hn1]⟩, ⟨n2, by rw [hl, hn2]⟩, ⟨n3, by rw [hg, hn3]⟩⟩

/-- Witness for C8: a form whose lat field is the non-numeric `"abc"`
is rejected before any store operation. -/
theorem claim_c8_witness :
    numericFieldOk ((fun k => if k = "lat" then some "abc" else
        if k = "price" then some "100" else some "x") "lat") = false ∧
    (submitPipeline [] (fun k => if k = "lat" then some "abc" else
        if k = "price" then some "100" else some "x") "" (some "0xa") 7
        = .fieldError ∧
     (∀ (st' : Store) (fd' : FormData) (editId' : String) (cu' : Option String)
         (now' : Int) (w : JsObj) (tgt : Option String),
       submitPipeline st' fd' editId' cu' now' = .write w tgt →
         (∃ n, objGet w "price" = some (.num n)) ∧
         (∃ n, objGet w "lat" = some (.num n)) ∧
         (∃ n, objGet w "lng" = some (.num n)))) :=
  ⟨rfl, claim_c8_validation_blocks_malformed_fields [] _ "" (some "0xa") 7
    (Or.inr (Or.inl rfl))⟩

/-- C9: `confirmShare` with an entered address not starting with `"0x"`
(after trimming) returns before any store operation: no ACL grant is
issued and no record write happens — the share state is unchanged. -/
theorem claim_c9_invalid_address_no_ops
    (sst : ShareState) (id : String) (input : String)
    (h : jsStartsWith (jsTrim input) "0x" = false) :
    confirmShare sst id input = sst := by
  simp [confirmShare, h]

/-- Witness for C9: the entered address `"abc"` leaves both the store
and the grant list untouched. -/
theorem claim_c9_witness :
    jsStartsWith (jsTrim "abc") "0x" = false ∧
    confirmShare ⟨[("p1", [("owner", JsVal.str "0xa")])], []⟩ "p1" "abc"
      = ⟨[("p1", [("owner", JsVal.str "0xa")])], []⟩ :=
  ⟨rfl, claim_c9_invalid_address_no_ops ⟨[("p1", [("owner", JsVal.str "0xa")])], []⟩ "p1" "abc" rfl⟩

end DProp
